import Mathlib

/-!
Formal model of the Mole Hunt game scripts: role assignment, win-condition
checking, the game timer, the death detector and the end-of-game sequencer,
together with the player-list reply parser and the tracker's direction
computation.  Each definition is a direct translation of the corresponding
Python function; theorems check the documented behaviour against the model.
-/

namespace MoleHunt

/-- Player role enumeration (role.py). -/
inductive Role where
  | TRAITOR
  | INNOCENT
deriving DecidableEq, Repr

/-- Role manager state (role_manager.py): the traitor ratio and the
current role assignment, a dict from player name to role kept in insertion
order. -/
structure RoleManager where
  traitor_ratio : ℚ
  roles : List (String × Role)
deriving DecidableEq, Repr

/-- `RoleManager.get_traitors`: players whose role is TRAITOR, in dict order. -/
def RoleManager.get_traitors (rm : RoleManager) : List String :=
  (rm.roles.filter (fun pr => pr.2 = Role.TRAITOR)).map Prod.fst

/-- `RoleManager.get_innocents`: players whose role is INNOCENT, in dict order. -/
def RoleManager.get_innocents (rm : RoleManager) : List String :=
  (rm.roles.filter (fun pr => pr.2 = Role.INNOCENT)).map Prod.fst

/-- The three win checks after the initial draw check in
`WinConditionChecker.check_win_conditions`; control falls through to these
whenever the first `if` block does not return. -/
def restWinChecks (alive_traitors alive_innocents all_traitors all_innocents : List String)
    (timerExpired : Bool) : Option (String × String) :=
  if alive_innocents.length = 0 ∧ all_innocents.length > 0 ∧ all_traitors.length > 0 ∧
      alive_traitors.length > 0 then
    some ("Traitors", "All innocent players eliminated")
  else if timerExpired ∧ alive_innocents.length > 0 then
    some ("Innocents", "Time limit reached")
  else if alive_traitors.length = 0 ∧ alive_innocents.length > 0 ∧ all_traitors.length > 0 then
    some ("Innocents", "All traitors eliminated")
  else
    none

/-- `WinConditionChecker.check_win_conditions` (win_condition_checker.py):
given the role assignment, the set of alive players and whether the timer has
expired, return `(winner, reason)` or `none`.  The timer query
`self.timer_manager.is_expired()` is passed in as `timerExpired`. -/
def check_win_conditions (rm : RoleManager) (alive_players : List String)
    (timerExpired : Bool) : Option (String × String) :=
  let alive_traitors := rm.get_traitors.filter (fun p => alive_players.contains p)
  let alive_innocents := rm.get_innocents.filter (fun p => alive_players.contains p)
  let all_traitors := rm.get_traitors
  let all_innocents := rm.get_innocents
  if alive_traitors.length = 0 ∧ alive_innocents.length = 0 then
    if (all_traitors.length > 0 ∨ all_innocents.length > 0) ∧ alive_players.length > 0 then
      some ("Draw", "No players remaining")
    else if alive_players.length = 0 then
      none
    else
      restWinChecks alive_traitors alive_innocents all_traitors all_innocents timerExpired
  else
    restWinChecks alive_traitors alive_innocents all_traitors all_innocents timerExpired

/-- The decision table of spec §4.6, written from the spec's words: rules
evaluated in order, first match wins, over abstract inputs (alive-traitor
count, alive-innocent count, assignment flags, timer flag, online count). -/
def winTableSpec (aliveTraitors aliveInnocents : ℕ)
    (traitorsAssigned innocentsAssigned timerExpired : Bool)
    (onlineCount : ℕ) : Option (String × String) :=
  if aliveTraitors = 0 ∧ aliveInnocents = 0 ∧ (traitorsAssigned ∨ innocentsAssigned) ∧
      onlineCount > 0 then
    some ("Draw", "No players remaining")
  else if aliveTraitors = 0 ∧ aliveInnocents = 0 ∧ onlineCount = 0 then
    none
  else if aliveInnocents = 0 ∧ innocentsAssigned ∧ traitorsAssigned ∧ aliveTraitors > 0 then
    some ("Traitors", "All innocent players eliminated")
  else if timerExpired ∧ aliveInnocents > 0 then
    some ("Innocents", "Time limit reached")
  else if aliveTraitors = 0 ∧ aliveInnocents > 0 ∧ traitorsAssigned then
    some ("Innocents", "All traitors eliminated")
  else
    none

/-- Purely propositional core of the win-table comparison, over the counts
that both functions branch on. -/
theorem winTable_core (aT aI allT allI : ℕ) (te : Bool) (online : ℕ) :
    (if aT = 0 ∧ aI = 0 then
      if (allT > 0 ∨ allI > 0) ∧ online > 0 then
        some ("Draw", "No players remaining")
      else if online = 0 then
        (none : Option (String × String))
      else
        (if aI = 0 ∧ allI > 0 ∧ allT > 0 ∧ aT > 0 then
          some ("Traitors", "All innocent players eliminated")
        else if te ∧ aI > 0 then
          some ("Innocents", "Time limit reached")
        else if aT = 0 ∧ aI > 0 ∧ allT > 0 then
          some ("Innocents", "All traitors eliminated")
        else none)
    else
      (if aI = 0 ∧ allI > 0 ∧ allT > 0 ∧ aT > 0 then
        some ("Traitors", "All innocent players eliminated")
      else if te ∧ aI > 0 then
        some ("Innocents", "Time limit reached")
      else if aT = 0 ∧ aI > 0 ∧ allT > 0 then
        some ("Innocents", "All traitors eliminated")
      else none)) =
    winTableSpec aT aI (decide (allT > 0)) (decide (allI > 0)) te online := by
  unfold winTableSpec
  split_ifs <;> simp_all

/-- C1: `check_win_conditions` computes exactly the decision table of the
spec, rules in order with first match winning, the draw rule first. -/
theorem check_win_conditions_matches_table (rm : RoleManager) (alive : List String)
    (te : Bool) :
    check_win_conditions rm alive te =
      winTableSpec
        ((rm.get_traitors.filter (fun p => alive.contains p)).length)
        ((rm.get_innocents.filter (fun p => alive.contains p)).length)
        (decide (rm.get_traitors.length > 0))
        (decide (rm.get_innocents.length > 0))
        te
        alive.length := by
  unfold check_win_conditions restWinChecks
  exact winTable_core _ _ _ _ te _

/-- C9: with an empty role assignment, `check_win_conditions` returns `none`
for every alive set and every timer state. -/
theorem check_win_conditions_no_roles (ratio : ℚ) (alive : List String) (te : Bool) :
    check_win_conditions ⟨ratio, []⟩ alive te = none := by
  unfold check_win_conditions restWinChecks RoleManager.get_traitors RoleManager.get_innocents
  simp only [List.filter_nil, List.map_nil, List.length_nil]
  split_ifs <;> simp_all

/-! ## Timer (timer_manager.py) -/

/-- Python `int(...)` applied to a rational: truncation toward zero. -/
def pyInt (q : ℚ) : ℤ := if q < 0 then ⌈q⌉ else ⌊q⌋

/-- Timer manager state (timer_manager.py).  Instants are rationals measured
in seconds; `none` models Python `None`. -/
structure TimerManager where
  duration_minutes : ℤ
  start_time : Option ℚ
  end_time : Option ℚ
deriving DecidableEq, Repr

/-- `TimerManager.start`: capture now and now + duration (converted to
seconds). -/
def TimerManager.start (t : TimerManager) (now : ℚ) : TimerManager :=
  { t with start_time := some now, end_time := some (now + 60 * t.duration_minutes) }

/-- `TimerManager.get_remaining_seconds`: 0 when no end time is set,
otherwise `max(0, int((end_time - now).total_seconds()))`. -/
def TimerManager.get_remaining_seconds (t : TimerManager) (now : ℚ) : ℤ :=
  match t.end_time with
  | none => 0
  | some e => max 0 (pyInt (e - now))

/-- `TimerManager.is_expired`: `get_remaining_seconds() <= 0`. -/
def TimerManager.is_expired (t : TimerManager) (now : ℚ) : Bool :=
  t.get_remaining_seconds now ≤ 0

/-- C8: at every instant, `is_expired` holds exactly when
`get_remaining_seconds` is 0; remaining seconds are never negative; once
started, remaining seconds are the clamped truncated difference; and with no
end time set (before `start`), remaining seconds report 0 and the timer
counts as expired. -/
theorem is_expired_iff_remaining_zero (t : TimerManager) (now : ℚ) :
    (t.is_expired now = true ↔ t.get_remaining_seconds now = 0) ∧
    0 ≤ t.get_remaining_seconds now ∧
    (∀ e, t.end_time = some e → t.get_remaining_seconds now = max 0 (pyInt (e - now))) ∧
    (t.end_time = none → t.get_remaining_seconds now = 0 ∧ t.is_expired now = true) := by
  unfold TimerManager.is_expired TimerManager.get_remaining_seconds
  cases h : t.end_time with
  | none => simp
  | some e =>
      refine ⟨?_, ?_, ?_, ?_⟩
      · simp only [decide_eq_true_eq]
        omega
      · exact le_max_left 0 _
      · intro e' he'
        simp_all
      · intro hn
        simp at hn

/-- Witness for C8 at a concrete timer that was never started. -/
theorem is_expired_iff_remaining_zero_witness :
    TimerManager.get_remaining_seconds ⟨30, none, none⟩ 0 = 0 ∧
    TimerManager.is_expired ⟨30, none, none⟩ 0 = true :=
  (is_expired_iff_remaining_zero ⟨30, none, none⟩ 0).2.2.2 rfl

/-! ## Role assignment (role_manager.py) -/

/-- Python dict assignment `d[k] = v`: overwrite in place when the key is
present, append otherwise. -/
def dictSet (d : List (String × Role)) (k : String) (v : Role) : List (String × Role) :=
  if d.any (fun kv => kv.1 = k) then
    d.map (fun kv => if kv.1 = k then (k, v) else kv)
  else
    d ++ [(k, v)]

/-- The assignment loop of `RoleManager.assign_roles`:
`for i, player in enumerate(shuffled): roles[player] = TRAITOR if i < num_traitors else INNOCENT`. -/
def buildRoles (shuffled : List String) (num_traitors : ℕ) : List (String × Role) :=
  shuffled.enum.foldl
    (fun d ip => dictSet d ip.2 (if ip.1 < num_traitors then Role.TRAITOR else Role.INNOCENT)) []

/-- `RoleManager.assign_roles`: empty input returns `{}` without touching the
stored assignment; otherwise the stored assignment is rebuilt from the
shuffled list with `max(1, int(len(players) * traitor_ratio))` traitors.  The
uniformly random `random.shuffle` is modelled by passing the shuffled order
`shuffled` explicitly. -/
def RoleManager.assign_roles (rm : RoleManager) (players shuffled : List String) :
    RoleManager × List (String × Role) :=
  if players = [] then (rm, [])
  else
    let nt := (max 1 (pyInt ((players.length : ℚ) * rm.traitor_ratio))).toNat
    let roles := buildRoles shuffled nt
    ({ rm with roles := roles }, roles)

theorem dictSet_of_not_mem (d : List (String × Role)) (k : String) (v : Role)
    (h : k ∉ d.map Prod.fst) : dictSet d k v = d ++ [(k, v)] := by
  unfold dictSet
  rw [if_neg]
  simp only [List.any_eq_true, decide_eq_true_eq, not_exists]
  rintro ⟨k', v'⟩ ⟨hmem, hk⟩
  exact h (hk ▸ List.mem_map_of_mem Prod.fst hmem)

theorem foldl_dictSet_append (f : ℕ → Role) :
    ∀ (l : List (ℕ × String)) (d : List (String × Role)),
      (l.map Prod.snd).Nodup → (∀ p ∈ l.map Prod.snd, p ∉ d.map Prod.fst) →
      l.foldl (fun d ip => dictSet d ip.2 (f ip.1)) d =
        d ++ l.map (fun ip => (ip.2, f ip.1)) := by
  intro l
  induction l with
  | nil => intro d _ _; simp
  | cons ip l ih =>
      intro d hnd hdisj
      simp only [List.map_cons, List.nodup_cons] at hnd
      simp only [List.foldl_cons, List.map_cons]
      rw [dictSet_of_not_mem d ip.2 (f ip.1)
        (hdisj ip.2 (by simp))]
      rw [ih (d ++ [(ip.2, f ip.1)]) hnd.2 ?_]
      · simp
      · intro p hp
        simp only [List.map_append, List.mem_append]
        rintro (hc | hc)
        · exact hdisj p (List.mem_cons_of_mem _ hp) hc
        · simp only [List.map_cons, List.map_nil, List.mem_singleton] at hc
          exact hnd.1 (hc ▸ hp)

theorem buildRoles_eq_map (shuffled : List String) (nt : ℕ) (h : shuffled.Nodup) :
    buildRoles shuffled nt =
      shuffled.enum.map
        (fun ip => (ip.2, if ip.1 < nt then Role.TRAITOR else Role.INNOCENT)) := by
  unfold buildRoles
  rw [foldl_dictSet_append (fun i => if i < nt then Role.TRAITOR else Role.INNOCENT)
    shuffled.enum []]
  · simp
  · simpa [List.enum_map_snd] using h
  · simp

theorem enumFrom_traitors_take (nt : ℕ) :
    ∀ (l : List String) (s : ℕ),
      (((List.enumFrom s l).map
          (fun ip => (ip.2, if ip.1 < nt then Role.TRAITOR else Role.INNOCENT))).filter
        (fun pr => pr.2 = Role.TRAITOR)).map Prod.fst = l.take (nt - s) := by
  intro l
  induction l with
  | nil => intro s; simp
  | cons a l ih =>
      intro s
      simp only [List.enumFrom, List.map_cons, List.filter_cons]
      by_cases hs : s < nt
      · have ht : nt - s = (nt - (s + 1)) + 1 := by omega
        rw [ht]
        simp [hs, ih (s + 1)]
      · have h1 : nt - s = 0 := by omega
        have h2 : nt - (s + 1) = 0 := by omega
        rw [h1]
        simp [hs, ih (s + 1), h2]

theorem enumFrom_innocents_drop (nt : ℕ) :
    ∀ (l : List String) (s : ℕ),
      (((List.enumFrom s l).map
          (fun ip => (ip.2, if ip.1 < nt then Role.TRAITOR else Role.INNOCENT))).filter
        (fun pr => pr.2 = Role.INNOCENT)).map Prod.fst = l.drop (nt - s) := by
  intro l
  induction l with
  | nil => intro s; simp
  | cons a l ih =>
      intro s
      simp only [List.enumFrom, List.map_cons, List.filter_cons]
      by_cases hs : s < nt
      · have ht : nt - s = (nt - (s + 1)) + 1 := by omega
        rw [ht, List.drop_succ_cons]
        simp [hs, ih (s + 1)]
      · have h1 : nt - s = 0 := by omega
        have h2 : nt - (s + 1) = 0 := by omega
        rw [h1]
        simp [hs, ih (s + 1), h2]

theorem map_fst_of_pairs (f : ℕ → Role) (l : List (ℕ × String)) :
    (l.map (fun ip => (ip.2, f ip.1))).map Prod.fst = l.map Prod.snd := by
  induction l with
  | nil => simp
  | cons ip l ih => simp [ih]

theorem enumFrom_map_snd (l : List String) : ∀ s : ℕ, (List.enumFrom s l).map Prod.snd = l := by
  induction l with
  | nil => intro s; simp
  | cons a l ih => intro s; simp [List.enumFrom, ih]

/-- `max(1, int(q))` agrees with `max(1, floor(q))` for every rational `q`:
for nonnegative `q` truncation is the floor, and for negative `q` both are
clamped to 1. -/
theorem max_one_pyInt_eq_floor (q : ℚ) : max 1 (pyInt q) = max 1 ⌊q⌋ := by
  unfold pyInt
  split_ifs with h
  · have hc : ⌈q⌉ ≤ (0 : ℤ) := Int.ceil_le.mpr (by exact_mod_cast h.le)
    have hf : ⌊q⌋ ≤ 0 := le_trans (Int.floor_le_ceil q) hc
    omega
  · rfl

/-- C5: for every non-empty player list and every shuffled order (any
permutation of the players, modelling the uniform shuffle), `assign_roles`
makes exactly the first `max(1, floor(len(players) * traitor_ratio))`
positions of the shuffled list traitors and all remaining positions
innocents, and every input player receives exactly one role (the resulting
dict has exactly the shuffled players as keys, without duplicates). -/
theorem assign_roles_spec (rm : RoleManager) (players shuffled : List String)
    (hne : players ≠ []) (hperm : shuffled.Perm players) (hnd : shuffled.Nodup) :
    ((rm.assign_roles players shuffled).1.get_traitors =
        shuffled.take (max 1 ⌊(players.length : ℚ) * rm.traitor_ratio⌋).toNat) ∧
    ((rm.assign_roles players shuffled).1.get_innocents =
        shuffled.drop (max 1 ⌊(players.length : ℚ) * rm.traitor_ratio⌋).toNat) ∧
    ((rm.assign_roles players shuffled).1.roles.map Prod.fst = shuffled) ∧
    ((rm.assign_roles players shuffled).1.roles.map Prod.fst).Nodup ∧
    (∀ p ∈ players, p ∈ (rm.assign_roles players shuffled).1.roles.map Prod.fst) ∧
    (rm.assign_roles players shuffled).2 = (rm.assign_roles players shuffled).1.roles := by
  have hfl : max 1 (pyInt ((players.length : ℚ) * rm.traitor_ratio)) =
      max 1 ⌊(players.length : ℚ) * rm.traitor_ratio⌋ :=
    max_one_pyInt_eq_floor _
  set nt : ℕ := (max 1 ⌊(players.length : ℚ) * rm.traitor_ratio⌋).toNat with hnt
  have hres : rm.assign_roles players shuffled =
      ({ rm with roles := buildRoles shuffled nt }, buildRoles shuffled nt) := by
    unfold RoleManager.assign_roles
    rw [if_neg hne, hfl]
  have hb := buildRoles_eq_map shuffled nt hnd
  have hkeys : (buildRoles shuffled nt).map Prod.fst = shuffled := by
    rw [hb,
      map_fst_of_pairs (fun i => if i < nt then Role.TRAITOR else Role.INNOCENT) shuffled.enum]
    exact enumFrom_map_snd shuffled 0
  refine ⟨?_, ?_, ?_, ?_, ?_, ?_⟩
  · rw [hres]
    unfold RoleManager.get_traitors
    rw [hb]
    have := enumFrom_traitors_take nt shuffled 0
    simpa [List.enum] using this
  · rw [hres]
    unfold RoleManager.get_innocents
    rw [hb]
    have := enumFrom_innocents_drop nt shuffled 0
    simpa [List.enum] using this
  · rw [hres]; exact hkeys
  · rw [hres, hkeys]; exact hnd
  · intro p hp
    rw [hres, hkeys]
    exact hperm.mem_iff.mpr hp
  · rw [hres]

/-- Witness for C5: 4 players with `traitor_ratio = 0.25` yield exactly one
traitor — the first player of the shuffled order. -/
theorem assign_roles_spec_witness :
    (RoleManager.assign_roles ⟨1/4, []⟩ ["a", "b", "c", "d"]
        ["a", "b", "c", "d"]).1.get_traitors = ["a"] ∧
    (RoleManager.assign_roles ⟨1/4, []⟩ ["a", "b", "c", "d"]
        ["a", "b", "c", "d"]).1.get_innocents = ["b", "c", "d"] := by
  have h := assign_roles_spec ⟨1/4, []⟩ ["a", "b", "c", "d"] ["a", "b", "c", "d"]
    (by decide) (List.Perm.refl _) (by decide)
  have hnt : (max 1 ⌊((["a", "b", "c", "d"] : List String).length : ℚ) * (1/4)⌋).toNat = 1 := by
    norm_num
  exact ⟨by rw [h.1]; simp [hnt], by rw [h.2.1]; simp [hnt]⟩

/-- C10: calling `assign_roles` with an empty player list returns an empty
mapping and leaves the stored role assignment unchanged: `get_traitors` and
`get_innocents` still report the roles from the prior assignment. -/
theorem assign_roles_empty_keeps_state (rm : RoleManager) (sh : List String) :
    rm.assign_roles [] sh = (rm, []) ∧
    (rm.assign_roles [] sh).1.get_traitors = rm.get_traitors ∧
    (rm.assign_roles [] sh).1.get_innocents = rm.get_innocents := by
  unfold RoleManager.assign_roles
  simp

/-! ## Death detector (game_state.py, `_check_deaths`) -/

/-- Python dict read `d.get(k)`: first entry for `k`, if any. -/
def dictGet {α : Type} (d : List (String × α)) (k : String) : Option α :=
  match d with
  | [] => none
  | kv :: rest => if kv.1 = k then some kv.2 else dictGet rest k

/-- Python dict assignment `d[k] = v` for an arbitrary value type. -/
def dictAssign {α : Type} (d : List (String × α)) (k : String) (v : α) : List (String × α) :=
  if (dictGet d k).isSome then
    d.map (fun kv => if kv.1 = k then (k, v) else kv)
  else
    d ++ [(k, v)]

/-- Python `d.pop(k, None)`: drop the entry for `k` if present. -/
def dictPop {α : Type} (d : List (String × α)) (k : String) : List (String × α) :=
  d.filter (fun kv => kv.1 != k)

/-- Python `s.add(p)` on a set modelled as a duplicate-free list. -/
def setAdd (s : List String) (p : String) : List String :=
  if p ∈ s then s else s ++ [p]

/-- Python `s.discard(p)`. -/
def setDiscard (s : List String) (p : String) : List String :=
  s.filter (fun q => q != p)

/-- A chat message emitted by the death detector. -/
inductive Message where
  | toPlayer (player text : String)
  | toAll (text : String)
deriving DecidableEq, Repr

/-- Mutable state touched by `_check_deaths` for one player. -/
structure DeathState where
  alive : List String
  pending : List (String × ℚ)
  deathCounts : List (String × ℤ)
deriving DecidableEq, Repr

/-- Result of processing one player's gamemode observation. -/
structure DeathPollResult where
  state : DeathState
  notifications : List Message
  winCheckAlive : Option (List String)
deriving DecidableEq, Repr

/-- The verification delay of `_check_deaths` (0.5 seconds). -/
def verification_delay : ℚ := 1/2

/-- One player's processing inside the `_check_deaths` poll loop
(game_state.py lines 1064–1127), given the observed gamemode
(`isSpectator` = gamemode id 3) at time `now`.  `winCheckAlive` is the alive
set handed to `check_win_conditions` when a death is confirmed. -/
def checkPlayerPoll (st : DeathState) (player : String) (isSpectator : Bool)
    (now : ℚ) (isSimulated : Bool) : DeathPollResult :=
  if isSpectator then
    if player ∈ st.alive ∨ isSimulated then
      match dictGet st.pending player with
      | none =>
          { state := { st with pending := dictAssign st.pending player now },
            notifications := [], winCheckAlive := none }
      | some t0 =>
          if now - t0 ≥ verification_delay then
            let alive' := setDiscard st.alive player
            { state :=
                { alive := alive',
                  pending := dictPop st.pending player,
                  deathCounts := dictAssign st.deathCounts player 1 },
              notifications :=
                (if isSimulated then [] else [Message.toPlayer player "§cYou died!"]) ++
                [Message.toAll ("§7" ++ player ++ " has been eliminated!")],
              winCheckAlive := some alive' }
          else
            { state := st, notifications := [], winCheckAlive := none }
    else
      { state := st, notifications := [], winCheckAlive := none }
  else
    let pending' :=
      if (dictGet st.pending player).isSome then dictPop st.pending player
      else st.pending
    let alive' :=
      if ((dictGet st.deathCounts player).isSome ∨ isSimulated) ∧ player ∉ st.alive then
        setAdd st.alive player
      else st.alive
    { state := { st with pending := pending', alive := alive' },
      notifications := [], winCheckAlive := none }

theorem dictGet_cons {α : Type} (kv : String × α) (d : List (String × α)) (k : String) :
    dictGet (kv :: d) k = if kv.1 = k then some kv.2 else dictGet d k := rfl

theorem dictGet_dictAssign {α : Type} (d : List (String × α)) (k : String) (v : α) :
    dictGet (dictAssign d k v) k = some v := by
  unfold dictAssign
  split_ifs with h
  · induction d with
    | nil => simp [dictGet] at h
    | cons kv d ih =>
        by_cases hk : kv.1 = k
        · simp [dictGet, hk]
        · simp only [List.map_cons, if_neg hk]
          rw [dictGet_cons]
          simp only [if_neg hk]
          apply ih
          rw [dictGet_cons, if_neg hk] at h
          exact h
  · induction d with
    | nil => simp [dictGet]
    | cons kv d ih =>
        have hk : ¬ kv.1 = k := by
          intro hk
          rw [dictGet_cons, if_pos hk] at h
          simp at h
        rw [dictGet_cons, if_neg hk] at h
        simp only [List.cons_append]
        rw [dictGet_cons, if_neg hk]
        exact ih h

theorem dictGet_dictPop {α : Type} (d : List (String × α)) (k : String) :
    dictGet (dictPop d k) k = none := by
  unfold dictPop
  induction d with
  | nil => simp [dictGet]
  | cons kv d ih =>
      by_cases hk : kv.1 = k
      · have : (kv.1 != k) = false := by simpa using hk
        simpa [List.filter_cons, this] using ih
      · have hne : (kv.1 != k) = true := by simpa using hk
        simp only [List.filter_cons, hne]
        rw [if_pos trivial, dictGet_cons, if_neg hk]
        exact ih

theorem not_mem_setDiscard (s : List String) (p : String) : p ∉ setDiscard s p := by
  unfold setDiscard
  intro hmem
  have := List.of_mem_filter hmem
  simp at this

/-- C3 (amended): when a poll observes a player holding a pending-death
entry, still in spectator mode, at least the 0.5 s verification delay after
the recorded timestamp, the death detector confirms the death in that same
step: the player leaves the alive set, the player's death-count entry is set
to 1 (never decreasing a reachable count, which is always 0 or 1), the
pending entry is cleared, both death notifications are emitted, and the win
checker is invoked with the updated alive set. -/
theorem confirm_death_step (st : DeathState) (p : String) (t0 now : ℚ)
    (halive : p ∈ st.alive) (hpend : dictGet st.pending p = some t0)
    (hdelay : now - t0 ≥ verification_delay) :
    p ∉ (checkPlayerPoll st p true now false).state.alive ∧
    dictGet (checkPlayerPoll st p true now false).state.deathCounts p = some 1 ∧
    dictGet (checkPlayerPoll st p true now false).state.pending p = none ∧
    (checkPlayerPoll st p true now false).notifications =
      [Message.toPlayer p "§cYou died!",
       Message.toAll ("§7" ++ p ++ " has been eliminated!")] ∧
    (checkPlayerPoll st p true now false).winCheckAlive =
      some (checkPlayerPoll st p true now false).state.alive ∧
    (∀ c, dictGet st.deathCounts p = some c → c ≤ 1 →
      ∃ c', dictGet (checkPlayerPoll st p true now false).state.deathCounts p = some c' ∧
        c ≤ c') := by
  have hres : checkPlayerPoll st p true now false =
      { state :=
          { alive := setDiscard st.alive p,
            pending := dictPop st.pending p,
            deathCounts := dictAssign st.deathCounts p 1 },
        notifications := [Message.toPlayer p "§cYou died!",
          Message.toAll ("§7" ++ p ++ " has been eliminated!")],
        winCheckAlive := some (setDiscard st.alive p) } := by
    unfold checkPlayerPoll
    simp [hpend, halive, hdelay]
  refine ⟨?_, ?_, ?_, ?_, ?_, ?_⟩
  · rw [hres]; exact not_mem_setDiscard st.alive p
  · rw [hres]; exact dictGet_dictAssign st.deathCounts p 1
  · rw [hres]; exact dictGet_dictPop st.pending p
  · rw [hres]
  · rw [hres]
  · intro c _ hc1
    exact ⟨1, by rw [hres]; exact dictGet_dictAssign st.deathCounts p 1, hc1⟩

/-- Witness for C3 at a concrete state: player `"p"` alive with a pending
entry recorded 1 s ago is confirmed dead. -/
theorem confirm_death_step_witness :
    "p" ∉ (checkPlayerPoll ⟨["p"], [("p", 0)], [("p", 0)]⟩ "p" true 1 false).state.alive ∧
    dictGet (checkPlayerPoll ⟨["p"], [("p", 0)], [("p", 0)]⟩ "p" true 1
      false).state.deathCounts "p" = some 1 := by
  have h := confirm_death_step ⟨["p"], [("p", 0)], [("p", 0)]⟩ "p" 0 1
    (by simp) rfl (by norm_num [verification_delay])
  exact ⟨h.1, h.2.1⟩

/-- Counterexample to C3 as stated: confirming the death of a player whose
death count is already 1 (possible after a respawn, since leaving spectator
mode puts a counted player back into the alive set) stores 1 again rather
than incrementing to 2. -/
theorem death_count_not_incremented :
    dictGet (DeathState.deathCounts ⟨["p"], [("p", 0)], [("p", 1)]⟩) "p" = some 1 ∧
    "p" ∉ (checkPlayerPoll ⟨["p"], [("p", 0)], [("p", 1)]⟩ "p" true 1 false).state.alive ∧
    dictGet (checkPlayerPoll ⟨["p"], [("p", 0)], [("p", 1)]⟩ "p" true 1
      false).state.deathCounts "p" = some 1 ∧
    dictGet (checkPlayerPoll ⟨["p"], [("p", 0)], [("p", 1)]⟩ "p" true 1
      false).state.deathCounts "p" ≠ some 2 := by
  have hd : verification_delay ≤ (1 : ℚ) := by norm_num [verification_delay]
  have hres : checkPlayerPoll ⟨["p"], [("p", 0)], [("p", 1)]⟩ "p" true 1 false =
      { state := { alive := [], pending := [], deathCounts := [("p", 1)] },
        notifications := [Message.toPlayer "p" "§cYou died!",
          Message.toAll ("§7" ++ "p" ++ " has been eliminated!")],
        winCheckAlive := some [] } := by
    unfold checkPlayerPoll
    simp [hd, dictGet, dictAssign, dictPop, setDiscard]
  refine ⟨rfl, ?_, ?_, ?_⟩ <;> rw [hres] <;> simp [dictGet]

/-- C4: a single spectator observation never kills by itself.  The first
poll that sees an alive player in spectator mode only records a pending
timestamp — the player stays alive, no notification, no death-count change,
no win check — and if the very next poll observes the player out of
spectator mode, the pending entry is cleared and the player is still alive:
in this two-poll sequence the player is never reported dead. -/
theorem debounce_no_death (st : DeathState) (p : String) (t1 t2 : ℚ)
    (halive : p ∈ st.alive) (hpend : dictGet st.pending p = none) :
    (checkPlayerPoll st p true t1 false).state.alive = st.alive ∧
    (checkPlayerPoll st p true t1 false).state.deathCounts = st.deathCounts ∧
    (checkPlayerPoll st p true t1 false).notifications = [] ∧
    (checkPlayerPoll st p true t1 false).winCheckAlive = none ∧
    dictGet (checkPlayerPoll st p true t1 false).state.pending p = some t1 ∧
    p ∈ (checkPlayerPoll (checkPlayerPoll st p true t1 false).state p false t2
      false).state.alive ∧
    dictGet (checkPlayerPoll (checkPlayerPoll st p true t1 false).state p false t2
      false).state.pending p = none ∧
    (checkPlayerPoll (checkPlayerPoll st p true t1 false).state p false t2
      false).state.deathCounts = st.deathCounts ∧
    (checkPlayerPoll (checkPlayerPoll st p true t1 false).state p false t2
      false).notifications = [] ∧
    (checkPlayerPoll (checkPlayerPoll st p true t1 false).state p false t2
      false).winCheckAlive = none := by
  have h1 : checkPlayerPoll st p true t1 false =
      { state := { st with pending := dictAssign st.pending p t1 },
        notifications := [], winCheckAlive := none } := by
    unfold checkPlayerPoll
    simp [hpend, halive]
  have hget : dictGet (dictAssign st.pending p t1) p = some t1 :=
    dictGet_dictAssign st.pending p t1
  have h2 : checkPlayerPoll { st with pending := dictAssign st.pending p t1 } p false t2
      false =
      { state := { st with pending := dictPop (dictAssign st.pending p t1) p },
        notifications := [], winCheckAlive := none } := by
    unfold checkPlayerPoll
    simp [hget, halive]
  rw [h1, h2]
  refine ⟨rfl, rfl, rfl, rfl, hget, halive, dictGet_dictPop _ p, rfl, rfl, rfl⟩

/-- Witness for C4 at a concrete two-poll run for player `"p"`. -/
theorem debounce_no_death_witness :
    dictGet (checkPlayerPoll ⟨["p"], [], []⟩ "p" true 0 false).state.pending "p" = some 0 ∧
    "p" ∈ (checkPlayerPoll (checkPlayerPoll ⟨["p"], [], []⟩ "p" true 0 false).state "p"
      false 1 false).state.alive ∧
    (checkPlayerPoll (checkPlayerPoll ⟨["p"], [], []⟩ "p" true 0 false).state "p"
      false 1 false).notifications = [] := by
  have h := debounce_no_death ⟨["p"], [], []⟩ "p" 0 1 (by simp) rfl
  exact ⟨h.2.2.2.2.1, h.2.2.2.2.2.1, h.2.2.2.2.2.2.2.2.1⟩

/-! ## End-of-game sequencer (game_state.py, `_end_game`) -/

/-- Game status enumeration (game_status.py). -/
inductive GameStatus where
  | NOT_STARTED
  | STARTING
  | IN_PROGRESS
  | ENDED
deriving DecidableEq, Repr

/-- The orchestrator fields read and written by `_end_game`. -/
structure OrchestratorState where
  status : GameStatus
  monitor_running : Bool
  tracking_running : Bool
  game_ended_announced : Bool
deriving DecidableEq, Repr

/-- Observable side effects of the end-of-game sequence, in order. -/
inductive EndEffect where
  | teleportToSpawn
  | setSurvivalAll
  | announce (winner reason : String)
  | roleReveal
  | cleanup
deriving DecidableEq, Repr

/-- The full end-of-game side-effect sequence: teleport to spawn, set
survival mode, announce the result, reveal roles, run cleanup. -/
def endGameEffects (winner reason : String) : List EndEffect :=
  [EndEffect.teleportToSpawn, EndEffect.setSurvivalAll,
   EndEffect.announce winner reason, EndEffect.roleReveal, EndEffect.cleanup]

/-- `_end_game` (game_state.py lines 1649–1810) on the path where the
announcement succeeds.  The surrounding lock serializes callers, so the
function is modelled as a sequential state transition; the second guard
(`status == ENDED and announced`) is kept even though it is subsumed by the
first. -/
def end_game (st : OrchestratorState) (winner reason : String) :
    OrchestratorState × List EndEffect :=
  if st.game_ended_announced then (st, [])
  else if st.status = GameStatus.ENDED ∧ st.game_ended_announced then (st, [])
  else
    let st1 :=
      if st.status ≠ GameStatus.ENDED then
        { st with
          status := GameStatus.ENDED
          monitor_running := false
          tracking_running := false }
      else st
    ({ st1 with game_ended_announced := true }, endGameEffects winner reason)

/-- C2: the end-of-game sequence runs at most once.  A caller that observes
the announced flag already set returns immediately with no side effects and
no state change; the first caller that enters with the flag unset performs
the full effect sequence and leaves the flag set, so that any later call —
in particular an immediately following one — is a no-op. -/
theorem end_game_at_most_once (st : OrchestratorState) (w r w2 r2 : String) :
    (st.game_ended_announced = true → end_game st w r = (st, [])) ∧
    (st.game_ended_announced = false →
      (end_game st w r).2 = endGameEffects w r ∧
      (end_game st w r).1.game_ended_announced = true ∧
      (end_game st w r).1.status = GameStatus.ENDED ∧
      end_game (end_game st w r).1 w2 r2 = ((end_game st w r).1, [])) := by
  constructor
  · intro h
    unfold end_game
    rw [if_pos (by rw [h])]
  · intro h
    have hend : ∀ (s : OrchestratorState), s.game_ended_announced = true →
        end_game s w2 r2 = (s, []) := by
      intro s hs
      unfold end_game
      rw [if_pos (by rw [hs])]
    by_cases hs : st.status = GameStatus.ENDED
    · have hres : end_game st w r =
          ({ st with game_ended_announced := true }, endGameEffects w r) := by
        unfold end_game
        simp [h, hs]
      rw [hres]
      exact ⟨rfl, rfl, hs, hend _ rfl⟩
    · have hres : end_game st w r =
          ({ st with
              status := GameStatus.ENDED
              monitor_running := false
              tracking_running := false
              game_ended_announced := true },
            endGameEffects w r) := by
        unfold end_game
        simp [h, hs]
      rw [hres]
      exact ⟨rfl, rfl, rfl, hend _ rfl⟩

/-- Witness for C2: a concrete in-progress game ends once; the repeated call
and a call on an already-announced state are no-ops. -/
theorem end_game_at_most_once_witness :
    (end_game ⟨GameStatus.IN_PROGRESS, true, true, false⟩ "Traitors" "why").2 =
      endGameEffects "Traitors" "why" ∧
    end_game (end_game ⟨GameStatus.IN_PROGRESS, true, true, false⟩ "Traitors" "why").1
      "Innocents" "again" =
      ((end_game ⟨GameStatus.IN_PROGRESS, true, true, false⟩ "Traitors" "why").1, []) ∧
    end_game ⟨GameStatus.ENDED, false, false, true⟩ "Draw" "other" =
      (⟨GameStatus.ENDED, false, false, true⟩, []) := by
  have h1 := (end_game_at_most_once ⟨GameStatus.IN_PROGRESS, true, true, false⟩
    "Traitors" "why" "Innocents" "again").2 rfl
  have h2 := (end_game_at_most_once ⟨GameStatus.ENDED, false, false, true⟩
    "Draw" "other" "x" "y").1 rfl
  exact ⟨h1.1, h1.2.2.2, h2⟩

/-! ## Player-list reply parser (rcon_client.py, `get_online_players`) -/

/-- The characters stripped by Python `str.strip()`. -/
def isPySpace (c : Char) : Bool :=
  c == ' ' || c == '\t' || c == '\n' || c == '\r' || c == '\x0b' || c == '\x0c'

/-- Python `s.strip()` over a string modelled as a character list. -/
def pyStrip (s : List Char) : List Char :=
  (((s.dropWhile isPySpace).reverse).dropWhile isPySpace).reverse

/-- The preamble text checked by the parser. -/
def thereAre : List Char := "There are".toList

/-- Python `s.split(pat)[0]` for a non-empty pattern: the characters before
the first occurrence of `pat` (all of `s` when `pat` does not occur). -/
def takeBeforeInfix (pat : List Char) : List Char → List Char
  | [] => []
  | c :: rest => if pat <+: (c :: rest) then [] else c :: takeBeforeInfix pat rest

/-- The first part of the per-fragment cleanup of `get_online_players`:
`p.strip().replace("\n", " ").strip()`. -/
def normFragment (p : List Char) : List Char :=
  pyStrip ((pyStrip p).map (fun c => if c = '\n' then ' ' else c))

/-- The per-fragment cleanup of `get_online_players`: strip, replace
newlines, re-strip, then truncation before the preamble text (re-stripped)
when the fragment contains it. -/
def cleanFragment (p : List Char) : List Char :=
  if thereAre <:+: normFragment p then
    pyStrip (takeBeforeInfix thereAre (normFragment p))
  else normFragment p

/-- `RCONClient.get_online_players` (rcon_client.py lines 272–310), given the
reply text of the `list` command: empty reply or a reply without `:` yields
`[]`; otherwise the text between the first and second `:`
(`response.split(":")[1]`) is stripped and, when non-empty, split on `,`,
each fragment cleaned, empty results dropped. -/
def get_online_players (response : List Char) : List (List Char) :=
  if response = [] then []
  else if response.contains ':' then
    if pyStrip ((response.splitOn ':').getD 1 []) ≠ [] then
      ((pyStrip ((response.splitOn ':').getD 1 [])).splitOn ',').filterMap
        (fun p => if cleanFragment p ≠ [] then some (cleanFragment p) else none)
    else []
  else []

/-- The characters after the first `:`. -/
def afterFirstColon : List Char → List Char
  | [] => []
  | c :: rest => if c = ':' then rest else afterFirstColon rest

/-- The parser as the claim words it: split the reply on the FIRST `:`, split
the whole remainder on `,`, trim whitespace from each fragment, and drop any
fragment containing the preamble text. -/
def get_online_players_claim (response : List Char) : List (List Char) :=
  (((afterFirstColon response).splitOn ',').map pyStrip).filter
    (fun n => decide (¬ thereAre <:+: n ∧ n ≠ []))

theorem takeBeforeInfix_isPrefix (pat : List Char) :
    ∀ s : List Char, takeBeforeInfix pat s <+: s := by
  intro s
  induction s with
  | nil => exact List.prefix_refl _
  | cons c rest ih =>
      unfold takeBeforeInfix
      split_ifs
      · exact List.nil_prefix
      · obtain ⟨t, ht⟩ := ih
        exact ⟨t, by rw [List.cons_append, ht]⟩

theorem not_infix_takeBeforeInfix (pat : List Char) (hpat : pat ≠ []) :
    ∀ s : List Char, ¬ pat <:+: takeBeforeInfix pat s := by
  intro s
  induction s with
  | nil =>
      unfold takeBeforeInfix
      intro h
      exact hpat (by simpa using h)
  | cons c rest ih =>
      unfold takeBeforeInfix
      split_ifs with hpre
      · intro h
        exact hpat (by simpa using h)
      · intro h
        rcases List.infix_cons_iff.mp h with h1 | h2
        · refine hpre (h1.trans ?_)
          obtain ⟨t, ht⟩ := takeBeforeInfix_isPrefix pat rest
          exact ⟨t, by rw [List.cons_append, ht]⟩
        · exact ih h2

theorem pyStrip_isInfix (s : List Char) : pyStrip s <:+: s := by
  unfold pyStrip
  have h1 : s.dropWhile isPySpace <:+ s := List.dropWhile_suffix _
  obtain ⟨v, hv⟩ : (s.dropWhile isPySpace).reverse.dropWhile isPySpace <:+
      (s.dropWhile isPySpace).reverse := List.dropWhile_suffix _
  have h2 : ((s.dropWhile isPySpace).reverse.dropWhile isPySpace).reverse <+:
      s.dropWhile isPySpace := by
    refine ⟨v.reverse, ?_⟩
    have := congrArg List.reverse hv
    simpa using this
  exact h2.isInfix.trans h1.isInfix

theorem cleanFragment_no_preamble (p : List Char) :
    ¬ thereAre <:+: cleanFragment p := by
  unfold cleanFragment
  have hne : thereAre ≠ [] := by simp [thereAre]
  split_ifs with h
  · intro hinf
    exact not_infix_takeBeforeInfix thereAre hne _
      (hinf.trans (pyStrip_isInfix _))
  · exact h

/-- C6 (amended): every name the parser returns is free of the preamble text
(fragments containing it are truncated before it, and fragments left empty
are dropped), and a well-formed synthetic player-list reply parses to exactly
the comma-separated trimmed names. -/
theorem get_online_players_correct :
    (∀ (r n : List Char), n ∈ get_online_players r → ¬ thereAre <:+: n) ∧
    get_online_players
        ("There are 3 of a max of 20 players online: alice, bob, carol".toList) =
      ["alice".toList, "bob".toList, "carol".toList] := by
  constructor
  · intro r n hn
    unfold get_online_players at hn
    split_ifs at hn
    · simp at hn
    · simp only [List.mem_filterMap] at hn
      obtain ⟨p, _, hp⟩ := hn
      by_cases hc : cleanFragment p = []
      · rw [if_neg (by simpa using hc)] at hp
        cases hp
      · rw [if_pos (by simpa using hc)] at hp
        injection hp with hpn
        rw [← hpn]
        exact cleanFragment_no_preamble p
    · simp at hn
    · simp at hn
  · decide

/-- Witness for C6: the name `alice` belongs to the parse of the synthetic
reply and contains no preamble text. -/
theorem get_online_players_correct_witness :
    "alice".toList ∈ get_online_players
        ("There are 3 of a max of 20 players online: alice, bob, carol".toList) ∧
    ¬ thereAre <:+: "alice".toList := by
  exact ⟨by decide, get_online_players_correct.1
    ("There are 3 of a max of 20 players online: alice, bob, carol".toList)
    ("alice".toList) (by decide)⟩

/-- Counterexample to C6 as stated: on a reply holding a second `:`, the code
keeps only the text between the first and second colon
(`response.split(":")[1]`), while splitting on the first `:` and keeping the
whole remainder — as the claim words it — keeps the rest: the two parses
disagree. -/
theorem get_online_players_counterexample :
    get_online_players
        ("There are 2 of a max of 20 players online: alice, bob:c".toList) =
      ["alice".toList, "bob".toList] ∧
    get_online_players_claim
        ("There are 2 of a max of 20 players online: alice, bob:c".toList) =
      ["alice".toList, "bob:c".toList] ∧
    get_online_players
        ("There are 2 of a max of 20 players online: alice, bob:c".toList) ≠
      get_online_players_claim
        ("There are 2 of a max of 20 players online: alice, bob:c".toList) := by
  refine ⟨by decide, by decide, by decide⟩

/-! ## Tracker direction (game_state.py, `_calculate_direction`) -/

/-- `math.atan2(y, x)`, idealized over the reals. -/
noncomputable def atan2 (y x : ℝ) : ℝ :=
  if 0 < x then Real.arctan (y / x)
  else if x < 0 then
    if 0 ≤ y then Real.arctan (y / x) + Real.pi else Real.arctan (y / x) - Real.pi
  else if 0 < y then Real.pi / 2
  else if y < 0 then -(Real.pi / 2)
  else 0

/-- `math.degrees`. -/
noncomputable def mathDegrees (t : ℝ) : ℝ := t * 180 / Real.pi

/-- Python float `%` with a positive modulus: `a - m * floor(a / m)`. -/
noncomputable def pyFMod (a m : ℝ) : ℝ := a - m * ⌊a / m⌋

/-- `(angle + 360) % 360` from `_calculate_direction`. -/
noncomputable def normalizeAngle (angle : ℝ) : ℝ := pyFMod (angle + 360) 360

/-- The 8-way bucketing of `_calculate_direction` over the normalized angle. -/
noncomputable def directionFromAngle (angle : ℝ) : String :=
  if 337.5 ≤ angle ∨ angle < 22.5 then "→ E"
  else if 22.5 ≤ angle ∧ angle < 67.5 then "↗ SE"
  else if 67.5 ≤ angle ∧ angle < 112.5 then "↓ S"
  else if 112.5 ≤ angle ∧ angle < 157.5 then "↙ SW"
  else if 157.5 ≤ angle ∧ angle < 202.5 then "← W"
  else if 202.5 ≤ angle ∧ angle < 247.5 then "↖ NW"
  else if 247.5 ≤ angle ∧ angle < 292.5 then "↑ N"
  else "↗ NE"

/-- `GameState._calculate_direction` (game_state.py lines 680–719):
`dx = target.x - traitor.x`, `dz = target.z - traitor.z`, angle
`atan2(dz, dx)` in degrees normalized to `[0, 360)`, bucketed. -/
noncomputable def calculate_direction (traitor_pos target_pos : ℝ × ℝ × ℝ) : String :=
  directionFromAngle (normalizeAngle (mathDegrees
    (atan2 (target_pos.2.2 - traitor_pos.2.2) (target_pos.1 - traitor_pos.1))))

theorem normalizeAngle_eq_fract (a : ℝ) :
    normalizeAngle a = 360 * Int.fract ((a + 360) / 360) := by
  unfold normalizeAngle pyFMod Int.fract
  field_simp

theorem normalizeAngle_mem_Ico (a : ℝ) :
    0 ≤ normalizeAngle a ∧ normalizeAngle a < 360 := by
  rw [normalizeAngle_eq_fract]
  constructor
  · exact mul_nonneg (by norm_num) (Int.fract_nonneg _)
  · have h := Int.fract_lt_one ((a + 360) / 360)
    nlinarith

theorem atan2_east : atan2 (0 : ℝ) 10 = 0 := by
  unfold atan2
  rw [if_pos (by norm_num : (0:ℝ) < 10)]
  norm_num

theorem atan2_south : atan2 (10 : ℝ) 0 = Real.pi / 2 := by
  unfold atan2
  rw [if_neg (by norm_num), if_neg (by norm_num), if_pos (by norm_num)]

theorem atan2_northwest : atan2 (-10 : ℝ) (-10) = Real.pi / 4 - Real.pi := by
  unfold atan2
  rw [if_neg (by norm_num), if_pos (by norm_num), if_neg (by norm_num)]
  norm_num [Real.arctan_one]

theorem normalizeAngle_zero : normalizeAngle (0 : ℝ) = 0 := by
  unfold normalizeAngle pyFMod
  norm_num

theorem normalizeAngle_ninety : normalizeAngle (90 : ℝ) = 90 := by
  unfold normalizeAngle pyFMod
  have hf : ⌊((90:ℝ) + 360) / 360⌋ = (1 : ℤ) := by
    rw [Int.floor_eq_iff]
    constructor <;> norm_num
  rw [hf]
  norm_num

theorem normalizeAngle_minus135 : normalizeAngle (-135 : ℝ) = 225 := by
  unfold normalizeAngle pyFMod
  have hf : ⌊((-135:ℝ) + 360) / 360⌋ = (0 : ℤ) := by
    rw [Int.floor_eq_iff]
    constructor <;> norm_num
  rw [hf]
  norm_num

/-- C7: the direction function computes `atan2(dz, dx)` in degrees
normalized to `[0, 360)` and buckets it into eight 45° sectors offset by
22.5°, East covering `[337.5, 360) ∪ [0, 22.5)`; in particular
`(dx, dz) = (10, 0)` is East, `(0, 10)` is South, `(-10, -10)` is
North-West, and the boundary angle 22.5° falls in South-East, not East. -/
theorem calculate_direction_spec :
    (∀ a : ℝ, 0 ≤ normalizeAngle a ∧ normalizeAngle a < 360) ∧
    (∀ a : ℝ, (337.5 ≤ a ∧ a < 360) ∨ (0 ≤ a ∧ a < 22.5) → directionFromAngle a = "→ E") ∧
    calculate_direction (0, 0, 0) (10, 0, 0) = "→ E" ∧
    calculate_direction (0, 0, 0) (0, 0, 10) = "↓ S" ∧
    calculate_direction (0, 0, 0) (-10, 0, -10) = "↖ NW" ∧
    directionFromAngle (22.5 : ℝ) = "↗ SE" := by
  refine ⟨normalizeAngle_mem_Ico, ?_, ?_, ?_, ?_, ?_⟩
  · intro a ha
    unfold directionFromAngle
    rcases ha with h | h
    · rw [if_pos (Or.inl h.1)]
    · rw [if_pos (Or.inr h.2)]
  · have hc : calculate_direction (0, 0, 0) (10, 0, 0) =
        directionFromAngle (normalizeAngle (mathDegrees (atan2 0 10))) := by
      unfold calculate_direction
      norm_num
    rw [hc, atan2_east]
    have hd : mathDegrees 0 = 0 := by unfold mathDegrees; norm_num
    rw [hd, normalizeAngle_zero]
    unfold directionFromAngle
    norm_num
  · have hc : calculate_direction (0, 0, 0) (0, 0, 10) =
        directionFromAngle (normalizeAngle (mathDegrees (atan2 10 0))) := by
      unfold calculate_direction
      norm_num
    rw [hc, atan2_south]
    have hd : mathDegrees (Real.pi / 2) = 90 := by
      unfold mathDegrees
      field_simp
      ring
    rw [hd, normalizeAngle_ninety]
    unfold directionFromAngle
    norm_num
  · have hc : calculate_direction (0, 0, 0) (-10, 0, -10) =
        directionFromAngle (normalizeAngle (mathDegrees (atan2 (-10) (-10)))) := by
      unfold calculate_direction
      norm_num
    rw [hc, atan2_northwest]
    have hd : mathDegrees (Real.pi / 4 - Real.pi) = -135 := by
      unfold mathDegrees
      field_simp
      ring
    rw [hd, normalizeAngle_minus135]
    unfold directionFromAngle
    norm_num
  · unfold directionFromAngle
    norm_num

/-- Witness for C7: the in-sector angle 350° maps to East. -/
theorem calculate_direction_spec_witness : directionFromAngle (350 : ℝ) = "→ E" :=
  calculate_direction_spec.2.1 350 (Or.inl ⟨by norm_num, by norm_num⟩)

end MoleHunt
